import Mathlib

/-!
Shallow embedding of the compliance core of the Scribsy repository
(access control, audit trail, data retention, secure deletion), together
with theorems settling the frozen claims about it.

Conventions of the embedding:
* timestamps and day counts are `Int` (Python datetime arithmetic never
  truncates, so natural-number truncation must be avoided);
* the relational store is an explicit `Db` record of row lists threaded
  through every operation; `Db.store_fails` models the persistent store
  being unavailable (every `commit` raises);
* Python functions that can raise return `Except String _`;
* bcrypt verification is abstracted: the stored hash is modelled by the
  password itself, `verify_password` compares for equality.
-/

namespace Scribsy

/-- Roles of app/security/permissions.py (class Role). -/
inductive Role where
  | provider
  | admin
  | auditor
  | read_only
deriving DecidableEq, Repr

/-- The `Role(value)` enum constructor of permissions.py: returns the member
whose value matches, and raises ValueError otherwise (modelled as `none`). -/
def Role.ofString : String → Option Role
  | "provider" => some .provider
  | "admin" => some .admin
  | "auditor" => some .auditor
  | "read_only" => some .read_only
  | _ => none

/-- Permissions of app/security/permissions.py (class Permission). -/
inductive Permission where
  | create_patient
  | read_patient
  | update_patient
  | delete_patient
  | create_note
  | read_note
  | update_note
  | delete_note
  | create_user
  | read_user
  | update_user
  | delete_user
  | read_audit_log
  | export_audit_log
  | manage_system
  | access_reports
deriving DecidableEq, Repr

/-- ROLE_PERMISSIONS of app/security/permissions.py. -/
def ROLE_PERMISSIONS : Role → List Permission
  | .provider =>
      [.create_patient, .read_patient, .update_patient,
       .create_note, .read_note, .update_note, .delete_note]
  | .admin =>
      [.create_patient, .read_patient, .update_patient, .delete_patient,
       .create_note, .read_note, .update_note, .delete_note,
       .create_user, .read_user, .update_user, .delete_user,
       .read_audit_log, .export_audit_log, .manage_system, .access_reports]
  | .auditor =>
      [.read_patient, .read_note, .read_audit_log, .export_audit_log,
       .access_reports]
  | .read_only =>
      [.read_patient, .read_note]

/-- Row of the users table (app/db/models.py, class User); only the columns
the compliance core reads are modelled. `hashed_password` holds the bcrypt
abstraction described in the file header. -/
structure User where
  id : Int
  username : String
  hashed_password : String
  email : String
  is_active : Bool
  role : String
  failed_login_attempts : Int
  account_locked_until : Option Int
  tenant_id : String
deriving DecidableEq, Repr

/-- Row of the patients table (app/db/models.py, class Patient); only the
columns the access decisions read are modelled. -/
structure Patient where
  id : Int
  user_id : Int
  tenant_id : String
deriving DecidableEq, Repr

/-- has_permission of app/security/permissions.py. `Role(user.role)` raises
ValueError for a role string outside the enum, which propagates out of the
function; that is the `Except.error` case. -/
def has_permission (user : User) (permission : Permission) : Except String Bool :=
  if !user.is_active then .ok false
  else
    match Role.ofString user.role with
    | none => .error ("ValueError: " ++ user.role ++ " is not a valid Role")
    | some r => .ok ((ROLE_PERMISSIONS r).contains permission)

/-- can_access_patient of app/security/permissions.py. The function receives
only the patient id and the owning user id; it never reads any tenant
information. `Role(user.role)` raises for unknown role strings. -/
def can_access_patient (user : User) (patient_id patient_user_id : Int) :
    Except String Bool :=
  if !user.is_active then .ok false
  else
    match Role.ofString user.role with
    | none => .error ("ValueError: " ++ user.role ++ " is not a valid Role")
    | some r =>
      if r = .admin ∨ r = .auditor then .ok true
      else if r = .provider ∨ r = .read_only then .ok (user.id == patient_user_id)
      else .ok false

namespace Rbac

/-- can_access_patient of app/security/rbac.py: a plain string comparison
with Role.ADMIN.value, then an ownership check; no tenant input at all. -/
def can_access_patient (user : User) (patient_user_id : Int) : Bool :=
  if user.role == "admin" then true
  else user.id == patient_user_id

end Rbac

/-- full_phi_fields of validate_minimum_necessary
(app/security/permissions.py). -/
def full_phi_fields : List String :=
  ["first_name", "last_name", "date_of_birth", "phone_number",
   "email", "address", "city", "state", "zip_code"]

/-- limited_phi_fields of validate_minimum_necessary. -/
def limited_phi_fields : List String :=
  ["first_name", "last_name", "date_of_birth"]

/-- clinical_fields of validate_minimum_necessary. -/
def clinical_fields : List String :=
  ["notes", "diagnoses", "medications", "allergies", "procedures"]

/-- validate_minimum_necessary of app/security/permissions.py. The Python
append loops over `requested_fields` are `List.filter`. -/
def validate_minimum_necessary (user : User) (requested_fields : List String) :
    Except String (List String) :=
  match Role.ofString user.role with
  | none => .error ("ValueError: " ++ user.role ++ " is not a valid Role")
  | some .admin => .ok requested_fields
  | some .provider => .ok requested_fields
  | some .auditor =>
      .ok (requested_fields.filter (fun f =>
        limited_phi_fields.contains f
          || ["id", "created_at", "updated_at"].contains f))
  | some .read_only =>
      .ok (requested_fields.filter (fun f =>
        clinical_fields.contains f || limited_phi_fields.contains f))

/-- Modelled from the words of the spec (section 4.1): Admin and Provider
receive the full requested set; Auditor only identity fields plus
id/created_at/updated_at; ReadOnly only clinical fields plus the limited
identity fields. Used to compare the source function against the claim. -/
def spec_minimum_necessary (r : Role) (requested_fields : List String) :
    List String :=
  match r with
  | .admin => requested_fields
  | .provider => requested_fields
  | .auditor =>
      requested_fields.filter (fun f =>
        ["first_name", "last_name", "date_of_birth"].contains f
          || ["id", "created_at", "updated_at"].contains f)
  | .read_only =>
      requested_fields.filter (fun f =>
        ["notes", "diagnoses", "medications", "allergies", "procedures"].contains f
          || ["first_name", "last_name", "date_of_birth"].contains f)

/-- Row of the notes table (app/db/models.py, class Note); only the columns
the retention services read are modelled. -/
structure Note where
  id : Int
  patient_id : Int
  provider_id : Int
  created_at : Int
  audio_file : Option String
  s3_key : Option String
  audio_retention_days : Option Int
  audio_deleted_at : Option Int
  audio_secure_deleted : Bool
  tenant_id : String
deriving DecidableEq, Repr

/-- Row of the audit_logs table (app/audit/models.py, class AuditLog).
`user_ip`, `user_agent`, `endpoint` and `method` are omitted: every call
modelled here passes `request=None`, so they are always NULL.
`phi_fields_accessed` is stored as a JSON list, modelled directly as a
list of field names. `created_at` is filled by the column default at
insert time, so the writer receives the clock as a parameter. -/
structure AuditEntry where
  user_id : Option Int
  username : String
  action_type : String
  resource_type : String
  resource_id : Option Int
  patient_id : Option Int
  phi_fields_accessed : Option (List String)
  description : String
  success : Bool
  error_message : Option String
  created_at : Int
deriving DecidableEq, Repr

/-- Row of the login_attempts table (app/audit/models.py,
class LoginAttempt). -/
structure LoginAttemptRow where
  username : String
  ip_address : String
  user_agent : Option String
  success : Bool
  failure_reason : Option String
  created_at : Int
deriving DecidableEq, Repr

/-- Row of the data_retention_policies table (app/audit/models.py,
class DataRetentionPolicy). -/
structure RetentionPolicyRow where
  id : Int
  resource_type : String
  resource_id : Int
  retention_period_days : Int
  deletion_scheduled_at : Option Int
  deletion_completed_at : Option Int
  deletion_reason : Option String
  created_at : Int
deriving DecidableEq, Repr

/-- One line on the process-local structured log channel (the python
`logging` loggers the services write to). -/
structure LogLine where
  severity : String
  message : String
deriving DecidableEq, Repr

/-- The persistent store plus the process-local log channel.
`store_fails` models the relational store being unavailable: every
`session.commit()` raises while it is set. The table lists hold the
committed rows. -/
structure Db where
  users : List User
  patients : List Patient
  notes : List Note
  policies : List RetentionPolicyRow
  audit_logs : List AuditEntry
  login_attempts : List LoginAttemptRow
  local_log : List LogLine
  store_fails : Bool
deriving DecidableEq, Repr

/-- HIPAAAuditLogger.log_action of app/audit/logger.py. The whole body is
inside try/except: when the commit fails nothing is persisted and the
except clause writes one critical line to the process-local channel; the
function always returns normally. On success it persists the row and then
writes an info line (or an error line when `success` is false).
The `.upper()` / `.lower()` normalization of action_type and
resource_type is omitted: every embedded call site already passes the
normalized string. -/
def log_action (db : Db) (now : Int) (user_id : Option Int) (username : String)
    (action_type : String) (resource_type : String) (description : String)
    (resource_id : Option Int) (patient_id : Option Int)
    (phi_fields_accessed : Option (List String))
    (success : Bool) (error_message : Option String) : Db :=
  if db.store_fails then
    { db with local_log := db.local_log ++
        [⟨"critical", "AUDIT_LOG_FAILURE: Failed to log audit event"⟩] }
  else
    let entry : AuditEntry :=
      { user_id := user_id
        username := username
        action_type := action_type
        resource_type := resource_type
        resource_id := resource_id
        patient_id := patient_id
        phi_fields_accessed := phi_fields_accessed
        description := description
        success := success
        error_message := error_message
        created_at := now }
    { db with
      audit_logs := db.audit_logs ++ [entry]
      local_log := db.local_log ++
        [⟨if success then "info" else "error",
          (if success then "AUDIT: " else "AUDIT_FAILURE: ") ++ description⟩] }

/-- HIPAAAuditLogger.log_login_attempt of app/audit/logger.py: writes a
LoginAttempt row, then mirrors it through log_action as a LOGIN or
LOGIN_FAILED audit event. The body is inside try/except: when the first
commit fails the except clause writes one critical LOGIN_AUDIT_FAILURE
line and the function still returns normally. -/
def log_login_attempt (db : Db) (now : Int) (username : String)
    (ip_address : String) (user_agent : Option String)
    (success : Bool) (failure_reason : Option String) : Db :=
  if db.store_fails then
    { db with local_log := db.local_log ++
        [⟨"critical", "LOGIN_AUDIT_FAILURE"⟩] }
  else
    let row : LoginAttemptRow :=
      { username := username
        ip_address := ip_address
        user_agent := user_agent
        success := success
        failure_reason := failure_reason
        created_at := now }
    let db1 := { db with login_attempts := db.login_attempts ++ [row] }
    log_action db1 now none username
      (if success then "LOGIN" else "LOGIN_FAILED") "auth"
      ("Login attempt from " ++ ip_address)
      none none none success failure_reason

/-- AuditManager.log_event of app/security/audit.py. Its body constructs
`AuditLog(action=..., severity=..., details=..., old_values=...,
new_values=..., expires_at=...)`, but the shared AuditLog model
(app/audit/models.py) has none of those columns, so the constructor raises
TypeError before any persistence is attempted; the except clause logs one
error-severity line, rolls the session back and re-raises. The outcome is
therefore independent of the arguments and of store availability. -/
def log_event (db : Db) (user_id : Option Int) (resource_type : Option String)
    (resource_id : Option Int) (severity : String) : Db × Except String Unit :=
  ({ db with local_log := db.local_log ++
      [⟨"error", "Failed to create audit log: TypeError"⟩] },
   .error "TypeError: action is an invalid keyword argument for AuditLog")

/-- The local filesystem holding audio blobs. `files` maps a path to its
size in bytes; `faulty` lists paths on which any I/O operation raises (the
exception source for the except clause of secure_delete_file); `journal`
records every destructive file operation performed, so that a proof can
state that no overwrite happened. -/
structure Fs where
  files : List (String × Nat)
  faulty : List String
  journal : List String
deriving DecidableEq, Repr

/-- os.path.exists / os.path.getsize: the size of the file at a path, when
one exists. -/
def Fs.lookup (fs : Fs) (path : String) : Option Nat :=
  (fs.files.find? (fun kv => kv.1 == path)).map (fun kv => kv.2)

/-- AudioRetentionService.secure_delete_file of
app/services/audio_retention.py. A missing path returns True at once,
with no overwrite. Otherwise the file is overwritten `passes` times with
random bytes, flushed, and removed; any I/O exception is caught and the
function returns False with the file left in place. -/
def secure_delete_file (fs : Fs) (path : String) (passes : Nat) : Fs × Bool :=
  match fs.lookup path with
  | none => (fs, true)
  | some _ =>
    if fs.faulty.contains path then
      (fs, false)
    else
      ({ fs with
         files := fs.files.filter (fun kv => kv.1 != path)
         journal := fs.journal
           ++ (List.replicate passes ("overwrite " ++ path))
           ++ ["remove " ++ path] },
       true)

/-- The filter of the expired-notes query in delete_expired_audio_files:
audio_file IS NOT NULL, audio_deleted_at IS NOT NULL,
audio_deleted_at <= now, audio_secure_deleted = false. -/
def is_expired_audio (now : Int) (n : Note) : Bool :=
  n.audio_file.isSome && n.audio_deleted_at.isSome
    && (match n.audio_deleted_at with | some t => decide (t ≤ now) | none => false)
    && !n.audio_secure_deleted

/-- One iteration of the loop in delete_expired_audio_files, for one
expired note. When secure_delete_file succeeds the note is flagged
securely deleted and its file references cleared; the following
`AuditManager.log_action` call raises AttributeError (AuditManager has no
such method), which the per-note except catches and logs, so
deleted_count is never incremented. When secure_delete_file fails the
note is left unchanged and an error line is logged. The `none` branch is
unreachable under the query filter. -/
def process_expired_note (fs : Fs) (lg : List LogLine) (n : Note) :
    Fs × List LogLine × Note × Nat :=
  match n.audio_file with
  | none => (fs, lg, n, 0)
  | some path =>
    let r := secure_delete_file fs path 3
    if r.2 then
      let n2 : Note :=
        { n with audio_secure_deleted := true, audio_file := none, s3_key := none }
      (r.1,
       lg ++ [⟨"error", "Error deleting audio file for note " ++ toString n.id⟩],
       n2, 0)
    else
      (r.1,
       lg ++ [⟨"error", "Failed to securely delete audio file for note "
                 ++ toString n.id⟩],
       n, 0)

/-- The for-loop of delete_expired_audio_files over the notes table:
expired notes are processed, others pass through unchanged. -/
def audio_sweep_loop (now : Int) :
    Fs → List LogLine → List Note → Fs × List LogLine × List Note × Nat
  | fs, lg, [] => (fs, lg, [], 0)
  | fs, lg, n :: rest =>
    if is_expired_audio now n then
      let s := process_expired_note fs lg n
      let t := audio_sweep_loop now s.1 s.2.1 rest
      (t.1, t.2.1, s.2.2.1 :: t.2.2.1, s.2.2.2 + t.2.2.2)
    else
      let t := audio_sweep_loop now fs lg rest
      (t.1, t.2.1, n :: t.2.2.1, t.2.2.2)

/-- AudioRetentionService.delete_expired_audio_files of
app/services/audio_retention.py. Processes every expired note, then
commits the flag changes and logs a summary line; when the final commit
fails the outer except rolls the table changes back and returns 0, while
the file deletions already performed on disk remain. -/
def delete_expired_audio_files (db : Db) (fs : Fs) (now : Int) :
    Db × Fs × Nat :=
  let t := audio_sweep_loop now fs db.local_log db.notes
  if db.store_fails then
    ({ db with local_log := t.2.1 ++
        [⟨"error", "Error in delete_expired_audio_files"⟩] },
     t.1, 0)
  else
    ({ db with
       notes := t.2.2.1
       local_log := t.2.1 ++
         [⟨"info", "Deleted " ++ toString t.2.2.2 ++ " expired audio files"⟩] },
     t.1, t.2.2.2)

/-- AudioRetentionService.schedule_audio_deletion of
app/services/audio_retention.py. Missing note or note without audio
returns False. Otherwise retention days and the deletion date
(now + retention_days) are set and committed; the following
`AuditManager.log_action` call raises AttributeError, caught by the outer
except, so the function returns False although the commit already
persisted the change. When the commit itself fails nothing is persisted
and the same except path returns False. -/
def schedule_audio_deletion (db : Db) (now : Int) (note_id : Int)
    (retention_days : Int) (user_id : Option Int) : Db × Bool :=
  match db.notes.find? (fun n => n.id == note_id) with
  | none => (db, false)
  | some n =>
    if n.audio_file.isNone then (db, false)
    else
      if db.store_fails then
        ({ db with local_log := db.local_log ++
            [⟨"error", "Failed to schedule audio deletion for note "
                ++ toString note_id⟩] },
         false)
      else
        let db1 := { db with
          notes := db.notes.map (fun (m : Note) =>
            if m.id == note_id then
              { m with audio_retention_days := some retention_days
                       audio_deleted_at := some (now + retention_days) }
            else m) }
        ({ db1 with local_log := db1.local_log ++
            [⟨"error", "Failed to schedule audio deletion for note "
                ++ toString note_id⟩] },
         false)

/-- AudioRetentionService.update_retention_policy of
app/services/audio_retention.py. Missing note returns False. Otherwise
audio_retention_days is set to the new value and, when the audio was not
already securely deleted and a file reference exists, the deletion date
is recomputed as now + new_retention_days (from the update time, not from
the creation time of the note). The commit persists this; the following
`AuditManager.log_action` call raises AttributeError, caught by the outer
except, so the function returns False. -/
def update_retention_policy (db : Db) (now : Int) (note_id : Int)
    (new_retention_days : Int) (user_id : Option Int) : Db × Bool :=
  match db.notes.find? (fun n => n.id == note_id) with
  | none => (db, false)
  | some _ =>
    if db.store_fails then
      ({ db with local_log := db.local_log ++
          [⟨"error", "Failed to update retention policy for note "
              ++ toString note_id⟩] },
       false)
    else
      let db1 := { db with
        notes := db.notes.map (fun (m : Note) =>
          if m.id == note_id then
            if !m.audio_secure_deleted && m.audio_file.isSome then
              { m with audio_retention_days := some new_retention_days
                       audio_deleted_at := some (now + new_retention_days) }
            else { m with audio_retention_days := some new_retention_days }
          else m) }
      ({ db1 with local_log := db1.local_log ++
          [⟨"error", "Failed to update retention policy for note "
              ++ toString note_id⟩] },
       false)

/-- HIPAADataRetentionService.DEFAULT_RETENTION_DAYS. -/
def DEFAULT_RETENTION_DAYS : Int := 2555

/-- HIPAADataRetentionService.AUDIT_LOG_RETENTION_DAYS. -/
def AUDIT_LOG_RETENTION_DAYS : Int := 2555

/-- HIPAADataRetentionService.MINIMUM_RETENTION_DAYS. -/
def MINIMUM_RETENTION_DAYS : Int := 2190

/-- Primary-key assignment for a freshly inserted retention policy row. -/
def next_policy_id (db : Db) : Int :=
  1 + db.policies.foldl (fun m p => max m p.id) 0

/-- HIPAADataRetentionService.create_retention_policy of
app/services/data_retention.py. A missing window defaults to
DEFAULT_RETENTION_DAYS and a window below MINIMUM_RETENTION_DAYS is
raised to the floor; the schedule is now + window. The function has no
try/except, so a failing commit propagates to the caller
(`Except.error`). After the commit, creation is audited when a user id
was supplied and resolves to a user. -/
def create_retention_policy (db : Db) (now : Int) (resource_type : String)
    (resource_id : Int) (retention_period_days : Option Int)
    (deletion_reason : Option String) (user_id : Option Int) :
    Except String (Db × RetentionPolicyRow) :=
  let days0 := retention_period_days.getD DEFAULT_RETENTION_DAYS
  let days := if days0 < MINIMUM_RETENTION_DAYS then MINIMUM_RETENTION_DAYS else days0
  let policy : RetentionPolicyRow :=
    { id := next_policy_id db
      resource_type := resource_type
      resource_id := resource_id
      retention_period_days := days
      deletion_scheduled_at := some (now + days)
      deletion_completed_at := none
      deletion_reason := some (deletion_reason.getD "Standard retention period expired")
      created_at := now }
  if db.store_fails then
    .error "OperationalError: commit failed"
  else
    let db1 := { db with policies := db.policies ++ [policy] }
    let db2 :=
      match user_id with
      | none => db1
      | some uid =>
        match db1.users.find? (fun u => u.id == uid) with
        | none => db1
        | some u =>
          log_action db1 now (some uid) u.username "CREATE"
            "data_retention_policy"
            ("Created retention policy for " ++ resource_type ++ " "
              ++ toString resource_id ++ " - " ++ toString days ++ " days")
            (some policy.id) none none true none
    .ok (db2, policy)

/-- HIPAADataRetentionService.get_resources_due_for_deletion of
app/services/data_retention.py: all policies with a schedule at or before
now and no completion timestamp, optionally filtered by resource type.
A NULL schedule never satisfies the SQL comparison. -/
def get_resources_due_for_deletion (db : Db) (now : Int)
    (resource_type : Option String) : List RetentionPolicyRow :=
  db.policies.filter (fun p =>
    (match p.deletion_scheduled_at with
     | some t => decide (t ≤ now)
     | none => false)
    && p.deletion_completed_at.isNone
    && (match resource_type with
        | some rt => p.resource_type == rt
        | none => true))

/-- `.first()` followed by in-place mutation: rewrite the first row
satisfying the predicate, leave the rest unchanged. -/
def update_first_policy (pred : RetentionPolicyRow → Bool)
    (f : RetentionPolicyRow → RetentionPolicyRow) :
    List RetentionPolicyRow → List RetentionPolicyRow
  | [] => []
  | p :: rest =>
      if pred p then f p :: rest else p :: update_first_policy pred f rest

/-- The body of the notes loop in securely_delete_patient: audit the note
deletion, then delete the note row. -/
def sdp_note_step (now : Int) (user_id : Int) (username : String)
    (reasonStr : String) (patient_id : Int) (d : Db) (n : Note) : Db :=
  let d1 := log_action d now (some user_id) username "DELETE" "note"
    ("Automated deletion of note " ++ toString n.id ++ " - " ++ reasonStr)
    (some n.id) (some patient_id) (some ["content", "note_type"]) true none
  { d1 with notes := d1.notes.filter (fun m => m.id != n.id) }

/-- HIPAADataRetentionService.securely_delete_patient of
app/services/data_retention.py. A missing patient logs a warning and
returns False without touching the policy. Otherwise every note of the
patient is audited then deleted, the patient deletion is audited, the
patient row is deleted, the first matching retention policy (if any) is
marked completed with the given reason, and everything is committed. A
failing commit is caught by the except clause: the session is rolled back
(the critical fallback lines of the audit writer stay on the process-local
channel) and False is returned. -/
def securely_delete_patient (db : Db) (now : Int) (patient_id : Int)
    (user_id : Int) (reason : Option String) : Db × Bool :=
  match db.patients.find? (fun p => p.id == patient_id) with
  | none =>
    ({ db with local_log := db.local_log ++
        [⟨"warning", "Patient " ++ toString patient_id ++ " not found for deletion"⟩] },
     false)
  | some _ =>
    let username :=
      match db.users.find? (fun u => u.id == user_id) with
      | some u => u.username
      | none => "system"
    let reasonStr := reason.getD "None"
    let victims := db.notes.filter (fun n => n.patient_id == patient_id)
    let db1 := victims.foldl (sdp_note_step now user_id username reasonStr patient_id) db
    let db2 := log_action db1 now (some user_id) username "DELETE" "patient"
      ("Automated deletion of patient " ++ toString patient_id ++ " - " ++ reasonStr)
      (some patient_id) (some patient_id)
      (some ["first_name", "last_name", "date_of_birth", "email", "phone_number"])
      true none
    let db3 := { db2 with
      patients := db2.patients.filter (fun p => p.id != patient_id) }
    let db4 := { db3 with
      policies := update_first_policy
        (fun p => p.resource_type == "patient" && p.resource_id == patient_id)
        (fun p => { p with deletion_completed_at := some now
                           deletion_reason := reason })
        db3.policies }
    if db.store_fails then
      ({ db with local_log := db4.local_log ++
          [⟨"error", "Failed to delete patient " ++ toString patient_id⟩] },
       false)
    else
      ({ db4 with local_log := db4.local_log ++
          [⟨"info", "Successfully deleted patient " ++ toString patient_id⟩] },
       true)

/-- HIPAADataRetentionService.securely_delete_note of
app/services/data_retention.py; the single-note analogue of
securely_delete_patient. -/
def securely_delete_note (db : Db) (now : Int) (note_id : Int)
    (user_id : Int) (reason : Option String) : Db × Bool :=
  match db.notes.find? (fun n => n.id == note_id) with
  | none =>
    ({ db with local_log := db.local_log ++
        [⟨"warning", "Note " ++ toString note_id ++ " not found for deletion"⟩] },
     false)
  | some n =>
    let username :=
      match db.users.find? (fun u => u.id == user_id) with
      | some u => u.username
      | none => "system"
    let reasonStr := reason.getD "None"
    let db1 := log_action db now (some user_id) username "DELETE" "note"
      ("Automated deletion of note " ++ toString note_id ++ " - " ++ reasonStr)
      (some note_id) (some n.patient_id) (some ["content", "note_type"]) true none
    let db2 := { db1 with notes := db1.notes.filter (fun m => m.id != note_id) }
    let db3 := { db2 with
      policies := update_first_policy
        (fun p => p.resource_type == "note" && p.resource_id == note_id)
        (fun p => { p with deletion_completed_at := some now
                           deletion_reason := reason })
        db2.policies }
    if db.store_fails then
      ({ db with local_log := db3.local_log ++
          [⟨"error", "Failed to delete note " ++ toString note_id⟩] },
       false)
    else
      ({ db3 with local_log := db3.local_log ++
          [⟨"info", "Successfully deleted note " ++ toString note_id⟩] },
       true)

/-- HIPAADataRetentionService.cleanup_old_audit_logs of
app/services/data_retention.py: audit rows older than the audit retention
window are counted, the cleanup itself is audited, the old rows are
deleted and committed. With no old rows nothing happens. A failing commit
is caught: rollback and 0. -/
def cleanup_old_audit_logs (db : Db) (now : Int) (user_id : Int) : Db × Int :=
  let cutoff := now - AUDIT_LOG_RETENTION_DAYS
  let old := db.audit_logs.filter (fun a => decide (a.created_at < cutoff))
  if old.length == 0 then (db, 0)
  else
    let username :=
      match db.users.find? (fun u => u.id == user_id) with
      | some u => u.username
      | none => "system"
    let db1 := log_action db now (some user_id) username "DELETE" "audit_log"
      ("Automated cleanup of " ++ toString old.length ++ " old audit logs")
      none none none true none
    if db.store_fails then
      ({ db with local_log := db1.local_log ++
          [⟨"error", "Failed to cleanup old audit logs"⟩] },
       0)
    else
      let db2 := { db1 with
        audit_logs := db1.audit_logs.filter (fun a => decide (cutoff ≤ a.created_at)) }
      ({ db2 with local_log := db2.local_log ++
          [⟨"info", "Cleaned up " ++ toString old.length ++ " old audit logs"⟩] },
       (old.length : Int))

/-- Result record of run_retention_cleanup. -/
structure SweepResult where
  patients_deleted : Nat
  notes_deleted : Nat
  audit_logs_cleaned : Int
  errors : List String
deriving DecidableEq, Repr

/-- The per-policy loop body of run_retention_cleanup: a patient policy
goes through securely_delete_patient, a note policy through
securely_delete_note; success increments the matching counter, failure
appends to the errors list; any other resource type is skipped silently. -/
def cleanup_loop (now : Int) (user_id : Int) :
    Db → SweepResult → List RetentionPolicyRow → Db × SweepResult
  | db, res, [] => (db, res)
  | db, res, pol :: rest =>
    if pol.resource_type == "patient" then
      let r := securely_delete_patient db now pol.resource_id user_id pol.deletion_reason
      if r.2 then
        cleanup_loop now user_id r.1
          { res with patients_deleted := res.patients_deleted + 1 } rest
      else
        cleanup_loop now user_id r.1
          { res with errors := res.errors ++
              ["Failed to delete patient " ++ toString pol.resource_id] } rest
    else if pol.resource_type == "note" then
      let r := securely_delete_note db now pol.resource_id user_id pol.deletion_reason
      if r.2 then
        cleanup_loop now user_id r.1
          { res with notes_deleted := res.notes_deleted + 1 } rest
      else
        cleanup_loop now user_id r.1
          { res with errors := res.errors ++
              ["Failed to delete note " ++ toString pol.resource_id] } rest
    else
      cleanup_loop now user_id db res rest

/-- HIPAADataRetentionService.run_retention_cleanup of
app/services/data_retention.py: fetch the due policies once, process each
one through the loop, then clean up old audit logs. -/
def run_retention_cleanup (db : Db) (now : Int) (user_id : Int) :
    Db × SweepResult :=
  let due := get_resources_due_for_deletion db now none
  let r := cleanup_loop now user_id db ⟨0, 0, 0, []⟩ due
  let c := cleanup_old_audit_logs r.1 now user_id
  (c.1, { r.2 with audit_logs_cleaned := c.2 })

/-- get_user_by_username of app/crud/notes.py (the ORM branch; the raw-row
fallback exists only for databases missing migrated columns). -/
def get_user_by_username (db : Db) (username : String) : Option User :=
  db.users.find? (fun u => u.username == username)

/-- verify_password of app/crud/notes.py, under the bcrypt abstraction of
the file header: comparison of the password with the stored value. -/
def verify_password (plain hashed : String) : Bool :=
  plain == hashed

/-- The ad hoc test account that authenticate_user fabricates when no user
row matches the name testuser (UserRead carries no role column; the model
default provider is used). -/
def test_user : User :=
  { id := 1
    username := "testuser"
    hashed_password := ""
    email := "test@example.com"
    is_active := true
    role := "provider"
    failed_login_attempts := 0
    account_locked_until := none
    tenant_id := "default" }

/-- authenticate_user of app/crud/notes.py: look the user up by name,
check the password, and return either the user or a failure reason. It
reads neither failed_login_attempts nor account_locked_until and never
writes them. -/
def authenticate_user (db : Db) (username password : String) :
    Option User × Option String :=
  match get_user_by_username db username with
  | none =>
    if username == "testuser" && password == "testpass123" then
      (some test_user, none)
    else (none, some "User not found")
  | some u =>
    if !(verify_password password u.hashed_password) then
      (none, some "Incorrect password")
    else (some u, none)

/-- A bearer token, reduced to the subject claim that create_access_token
puts in it. -/
structure Token where
  sub : String
deriving DecidableEq, Repr

/-- The login endpoint of app/api/endpoints/auth.py (POST /auth/token):
authenticate, write the LoginAttempt row and its mirrored audit event,
and either raise 401 (`Except.error`) or issue a token. No lockout state
is consulted or updated anywhere in the flow. -/
def login (db : Db) (now : Int) (username password ip : String)
    (user_agent : Option String) : Db × Except String Token :=
  match authenticate_user db username password with
  | (none, err) =>
    let db1 := log_login_attempt db now username ip user_agent false
      (some (err.getD "Invalid credentials"))
    (db1, .error (err.getD "Incorrect username or password"))
  | (some u, _) =>
    let db1 := log_login_attempt db now username ip user_agent true none
    (db1, .ok ⟨u.username⟩)

/-! Concrete actors and records used by witnesses and counterexamples. -/

/-- An active administrator in tenant t1. -/
def admin_t1 : User :=
  { id := 1
    username := "alice"
    hashed_password := "pw"
    email := "alice@example.com"
    is_active := true
    role := "admin"
    failed_login_attempts := 0
    account_locked_until := none
    tenant_id := "t1" }

/-- A patient owned by user 2 in tenant t2. -/
def patient_t2 : Patient :=
  { id := 7, user_id := 2, tenant_id := "t2" }

/-- An active user whose role string is outside the Role enumeration. -/
def superuser_user : User :=
  { id := 3
    username := "mallory"
    hashed_password := "pw"
    email := "mallory@example.com"
    is_active := true
    role := "superuser"
    failed_login_attempts := 0
    account_locked_until := none
    tenant_id := "t1" }

/-- An active auditor. -/
def auditor_user : User :=
  { id := 4
    username := "audrey"
    hashed_password := "pw"
    email := "audrey@example.com"
    is_active := true
    role := "auditor"
    failed_login_attempts := 0
    account_locked_until := none
    tenant_id := "t1" }

/-- Claim C1 as stated is false on the code: the access decision functions
receive no tenant information at all, so an active admin of tenant t1 is
granted access to a patient of tenant t2 by both can_access_patient
implementations. -/
theorem C1_counterexample :
    admin_t1.tenant_id ≠ patient_t2.tenant_id
    ∧ can_access_patient admin_t1 patient_t2.id patient_t2.user_id = Except.ok true
    ∧ Rbac.can_access_patient admin_t1 patient_t2.user_id = true :=
  ⟨by decide, rfl, rfl⟩

/-- Claim C1 amended: the access decisions never read tenant identifiers —
the result is invariant under changing the actor tenant — and an active
admin actor is granted access to any patient record regardless of tenant,
in both the permissions.py and the rbac.py implementation. -/
theorem C1_amended (u : User) (t : String) (pid puid : Int) :
    can_access_patient { u with tenant_id := t } pid puid
        = can_access_patient u pid puid
    ∧ Rbac.can_access_patient { u with tenant_id := t } puid
        = Rbac.can_access_patient u puid
    ∧ (u.is_active = true → u.role = "admin" →
        can_access_patient u pid puid = Except.ok true
        ∧ Rbac.can_access_patient u puid = true) := by
  refine ⟨rfl, rfl, fun hact hrole => ⟨?_, ?_⟩⟩
  · unfold can_access_patient
    rw [hact, hrole]
    rfl
  · unfold Rbac.can_access_patient
    rw [hrole]
    rfl

/-- Witness for C1_amended at the concrete admin of tenant t1. -/
theorem C1_amended_witness :
    can_access_patient admin_t1 7 2 = Except.ok true
    ∧ Rbac.can_access_patient admin_t1 2 = true :=
  (C1_amended admin_t1 "t9" 7 2).2.2 rfl rfl

/-- Claim C3 as stated is false on the code: for an active actor whose
role string is not a member of the Role enumeration, has_permission
raises ValueError past the decision point instead of returning a denial. -/
theorem C3_counterexample :
    has_permission superuser_user Permission.read_patient
      = Except.error "ValueError: superuser is not a valid Role"
    ∧ has_permission superuser_user Permission.read_patient ≠ Except.ok false :=
  ⟨rfl, fun h => Except.noConfusion h⟩

/-- Claim C3 amended: an inactive actor is denied; an actor with a known
role gets a returned decision (no raise), namely membership in the role
permission table; an active actor with an unknown role string makes the
check raise ValueError; and the check never returns allowed unless a
known role grants the permission — it never fails open by returning
allowed, but it can fail by raising. -/
theorem C3_amended (u : User) (p : Permission) :
    (u.is_active = false → has_permission u p = Except.ok false)
    ∧ (∀ r, u.is_active = true → Role.ofString u.role = some r →
        has_permission u p = Except.ok ((ROLE_PERMISSIONS r).contains p))
    ∧ (u.is_active = true → Role.ofString u.role = none →
        has_permission u p
          = Except.error ("ValueError: " ++ u.role ++ " is not a valid Role"))
    ∧ (has_permission u p = Except.ok true →
        u.is_active = true
        ∧ ∃ r, Role.ofString u.role = some r
            ∧ (ROLE_PERMISSIONS r).contains p = true) := by
  unfold has_permission
  refine ⟨fun h => by rw [h] ; rfl,
          fun r hact hr => by rw [hact, hr] ; rfl,
          fun hact hr => by rw [hact, hr] ; rfl,
          fun h => ?_⟩
  cases hact : u.is_active with
  | false => rw [hact] at h ; simp at h
  | true =>
    rw [hact] at h
    refine ⟨rfl, ?_⟩
    cases hr : Role.ofString u.role with
    | none => rw [hr] at h ; simp at h
    | some r =>
      rw [hr] at h
      simp only [Bool.not_true, Bool.false_eq_true, if_false, Except.ok.injEq] at h
      exact ⟨r, rfl, h⟩

/-- Witness for C3_amended at a concrete inactive user. -/
theorem C3_amended_witness :
    has_permission { admin_t1 with is_active := false } Permission.read_patient
      = Except.ok false :=
  (C3_amended { admin_t1 with is_active := false } Permission.read_patient).1 rfl

/-- Claim C7: for every actor whose role string resolves in the Role
enumeration and every requested field list, validate_minimum_necessary
returns exactly the field set the claim describes: Admin and Provider the
full requested set, Auditor only the identity fields plus
id/created_at/updated_at, ReadOnly only clinical plus limited identity
fields. -/
theorem C7_minimum_necessary (u : User) (r : Role) (fields : List String)
    (h : Role.ofString u.role = some r) :
    validate_minimum_necessary u fields
      = Except.ok (spec_minimum_necessary r fields) := by
  unfold validate_minimum_necessary spec_minimum_necessary
  rw [h]
  cases r <;> rfl

/-- Witness for C7_minimum_necessary at the concrete auditor. -/
theorem C7_minimum_necessary_witness :
    validate_minimum_necessary auditor_user ["first_name", "email", "id"]
      = Except.ok (spec_minimum_necessary Role.auditor ["first_name", "email", "id"]) :=
  C7_minimum_necessary auditor_user Role.auditor ["first_name", "email", "id"] rfl

/-- Finding after a rewrite-matching map: when the rewriting function
keeps the predicate satisfied, find? over the mapped list locates the
rewritten first match. -/
theorem find?_map_ite {α : Type} (pred : α → Bool) (g : α → α)
    (hg : ∀ a, pred a = true → pred (g a) = true) :
    ∀ l : List α,
      (l.map (fun a => if pred a then g a else a)).find? pred
        = (l.find? pred).map g := by
  intro l
  induction l with
  | nil => rfl
  | cons a l ih =>
    by_cases h : pred a = true
    · rw [List.map_cons, if_pos h, List.find?_cons_of_pos _ (hg a h),
          List.find?_cons_of_pos _ h]
      rfl
    · have h' : pred a = false := by
        cases ha : pred a
        · rfl
        · exact absurd ha h
      rw [List.map_cons, if_neg (by simp [h']), List.find?_cons_of_neg _ (by simp [h']),
          List.find?_cons_of_neg _ (by simp [h']), ih]

/-- An empty store whose commits fail (the relational store is
unavailable). -/
def failing_db : Db :=
  { users := []
    patients := []
    notes := []
    policies := []
    audit_logs := []
    login_attempts := []
    local_log := []
    store_fails := true }

/-- Claim C2 as stated is false for AuditManager.log_event: on a store
whose persistence fails, it raises to its caller (Except.error) and the
process-local entry it emits has error severity, not critical. -/
theorem C2_counterexample :
    (log_event failing_db (some 1) (some "note") (some 2) "low").2
      = Except.error "TypeError: action is an invalid keyword argument for AuditLog"
    ∧ (log_event failing_db (some 1) (some "note") (some 2) "low").1.local_log
      = [⟨"error", "Failed to create audit log: TypeError"⟩] :=
  ⟨rfl, rfl⟩

/-- Claim C2 amended: HIPAAAuditLogger.log_action satisfies the claim — on
persistence failure it returns normally, leaves the persistent tables
untouched and emits exactly one critical-severity line on the
process-local channel — while AuditManager.log_event always raises (its
AuditLog constructor arguments do not match the model) and emits an
error-severity line, never a critical one. -/
theorem C2_amended (db : Db) (now : Int) (uid : Option Int) (uname : String)
    (action_type resource_type description : String)
    (rid pid : Option Int) (phi : Option (List String))
    (success : Bool) (err : Option String)
    (uid2 : Option Int) (rt2 : Option String) (rid2 : Option Int) (sev : String) :
    (db.store_fails = true →
      log_action db now uid uname action_type resource_type description
          rid pid phi success err
        = { db with local_log := db.local_log ++
            [⟨"critical", "AUDIT_LOG_FAILURE: Failed to log audit event"⟩] })
    ∧ log_event db uid2 rt2 rid2 sev
        = ({ db with local_log := db.local_log ++
              [⟨"error", "Failed to create audit log: TypeError"⟩] },
           Except.error "TypeError: action is an invalid keyword argument for AuditLog") := by
  constructor
  · intro h
    unfold log_action
    rw [h]
    rfl
  · rfl

/-- Witness for C2_amended on the failing store. -/
theorem C2_amended_witness :
    log_action failing_db 0 none "sys" "READ" "note" "d" none none none true none
      = { failing_db with local_log := failing_db.local_log ++
          [⟨"critical", "AUDIT_LOG_FAILURE: Failed to log audit event"⟩] } :=
  (C2_amended failing_db 0 none "sys" "READ" "note" "d" none none none true none
    none none none "low").1 rfl

/-- A note created at time 0 carrying an audio file, scheduled by a
30 day window. -/
def note_audio : Note :=
  { id := 1
    patient_id := 1
    provider_id := 1
    created_at := 0
    audio_file := some "rec1.wav"
    s3_key := none
    audio_retention_days := some 30
    audio_deleted_at := some 30
    audio_secure_deleted := false
    tenant_id := "t1" }

/-- A working store holding exactly that one note. -/
def db_one_note : Db :=
  { users := []
    patients := []
    notes := [note_audio]
    policies := []
    audit_logs := []
    login_attempts := []
    local_log := []
    store_fails := false }

/-- Claim C4 as stated is false on the code: updating the window of the
note created at time 0 to 10 days at time 100 stores a schedule of 110,
not creation time plus 10. -/
theorem C4_counterexample :
    ((update_retention_policy db_one_note 100 1 10 none).1.notes.find?
        (fun n => n.id == 1)).map (fun n => n.audio_deleted_at)
      = some (some 110)
    ∧ (some (110 : Int) : Option Int) ≠ some (note_audio.created_at + 10) :=
  ⟨rfl, by decide⟩

/-- Claim C4 amended: update_retention_policy recomputes the schedule from
the update time, storing update time + new window (so the result depends
on when the update happens, not on the creation time of the record), and
the call returns False even though the change was committed. -/
theorem C4_amended (db : Db) (now : Int) (note_id new_days : Int)
    (uid : Option Int) (n : Note)
    (hfind : db.notes.find? (fun m => m.id == note_id) = some n)
    (hnotdel : n.audio_secure_deleted = false)
    (haudio : n.audio_file.isSome = true)
    (hok : db.store_fails = false) :
    ((update_retention_policy db now note_id new_days uid).1.notes.find?
        (fun m => m.id == note_id)).map (fun m => m.audio_deleted_at)
      = some (some (now + new_days))
    ∧ (update_retention_policy db now note_id new_days uid).2 = false := by
  simp only [update_retention_policy, hfind, hok, Bool.false_eq_true, if_false]
  refine ⟨?_, trivial⟩
  rw [find?_map_ite (fun m => m.id == note_id)
        (fun m =>
          if !m.audio_secure_deleted && m.audio_file.isSome then
            { m with audio_retention_days := some new_days
                     audio_deleted_at := some (now + new_days) }
          else { m with audio_retention_days := some new_days })
        (fun a ha => by dsimp only [] ; split <;> exact ha) db.notes,
      hfind]
  simp [hnotdel, haudio]

/-- Witness for C4_amended on the concrete one-note store. -/
theorem C4_amended_witness :
    ((update_retention_policy db_one_note 100 1 10 none).1.notes.find?
        (fun m => m.id == 1)).map (fun m => m.audio_deleted_at)
      = some (some 110) :=
  (C4_amended db_one_note 100 1 10 none note_audio rfl rfl rfl rfl).1

/-- Claim C6 as stated is false on the code: the note-audio scheduling
path stores a 1 day window as given, far below the 2190 day compliance
floor, instead of clamping it. -/
theorem C6_counterexample :
    ((schedule_audio_deletion db_one_note 0 1 1 none).1.notes.find?
        (fun n => n.id == 1)).map (fun n => n.audio_retention_days)
      = some (some 1)
    ∧ (1 : Int) < MINIMUM_RETENTION_DAYS :=
  ⟨rfl, by decide⟩

/-- Claim C6 amended: create_retention_policy clamps a window below the
floor up to MINIMUM_RETENTION_DAYS (and keeps a window at or above the
floor as requested), but schedule_audio_deletion stores the requested
window unclamped. -/
theorem C6_amended (db : Db) (now : Int) (rt : String) (rid : Int)
    (days : Int) (reason : Option String) (uid : Option Int)
    (note_id days2 : Int) (n : Note) (hok : db.store_fails = false) :
    (days < MINIMUM_RETENTION_DAYS →
      (create_retention_policy db now rt rid (some days) reason uid).map
          (fun x => x.2.retention_period_days)
        = Except.ok MINIMUM_RETENTION_DAYS)
    ∧ (MINIMUM_RETENTION_DAYS ≤ days →
      (create_retention_policy db now rt rid (some days) reason uid).map
          (fun x => x.2.retention_period_days)
        = Except.ok days)
    ∧ (db.notes.find? (fun m => m.id == note_id) = some n →
       n.audio_file.isSome = true →
      ((schedule_audio_deletion db now note_id days2 uid).1.notes.find?
          (fun m => m.id == note_id)).map (fun m => m.audio_retention_days)
        = some (some days2)) := by
  refine ⟨fun h => ?_, fun h => ?_, fun hfind haudio => ?_⟩
  · unfold create_retention_policy
    rw [hok]
    simp only [Bool.false_eq_true, if_false, Option.getD_some, if_pos h]
    rfl
  · unfold create_retention_policy
    rw [hok]
    simp only [Bool.false_eq_true, if_false, Option.getD_some, if_neg (not_lt.mpr h)]
    rfl
  · have haud : n.audio_file.isNone = false := by
      cases hx : n.audio_file
      · rw [hx] at haudio ; exact absurd haudio (by decide)
      · rfl
    simp only [schedule_audio_deletion, hfind, haud, hok, Bool.false_eq_true, if_false]
    rw [find?_map_ite (fun m => m.id == note_id)
          (fun m =>
            { m with audio_retention_days := some days2
                     audio_deleted_at := some (now + days2) })
          (fun a ha => ha) db.notes,
        hfind]
    rfl

/-- Witness for C6_amended: a 1 day request to the policy manager is
clamped to the floor, while the audio path stores 1 day as given. -/
theorem C6_amended_witness :
    (create_retention_policy db_one_note 0 "patient" 5 (some 1) none none).map
        (fun x => x.2.retention_period_days)
      = Except.ok MINIMUM_RETENTION_DAYS
    ∧ ((schedule_audio_deletion db_one_note 0 1 1 none).1.notes.find?
        (fun m => m.id == 1)).map (fun m => m.audio_retention_days)
      = some (some 1) :=
  ⟨(C6_amended db_one_note 0 "patient" 5 1 none none 1 1 note_audio rfl).1 (by decide),
   (C6_amended db_one_note 0 "patient" 5 1 none none 1 1 note_audio rfl).2.2 rfl rfl⟩

/-- The LoginAttempt row produced by a failed password check. -/
def failed_login_row (name ip : String) (ua : Option String) (now : Int) :
    LoginAttemptRow :=
  { username := name
    ip_address := ip
    user_agent := ua
    success := false
    failure_reason := some "Incorrect password"
    created_at := now }

/-- The mirrored AuditEvent produced by a failed password check. -/
def failed_login_audit (name ip : String) (now : Int) : AuditEntry :=
  { user_id := none
    username := name
    action_type := "LOGIN_FAILED"
    resource_type := "auth"
    resource_id := none
    patient_id := none
    phi_fields_accessed := none
    description := "Login attempt from " ++ ip
    success := false
    error_message := some "Incorrect password"
    created_at := now }

/-- One failed login against a working store: denied with the incorrect
password reason, one LoginAttempt row and one mirrored audit event
appended, and no other table touched — in particular the user rows, and
with them failed_login_attempts and account_locked_until, are untouched. -/
theorem login_failed_step (db : Db) (now : Int) (name pw ip : String)
    (ua : Option String) (u : User)
    (hfind : get_user_by_username db name = some u)
    (hwrong : (pw == u.hashed_password) = false)
    (hok : db.store_fails = false) :
    (login db now name pw ip ua).1.users = db.users
    ∧ (login db now name pw ip ua).1.login_attempts
        = db.login_attempts ++ [failed_login_row name ip ua now]
    ∧ (login db now name pw ip ua).1.audit_logs
        = db.audit_logs ++ [failed_login_audit name ip now]
    ∧ (login db now name pw ip ua).1.store_fails = false
    ∧ (login db now name pw ip ua).2 = Except.error "Incorrect password" := by
  simp only [login, authenticate_user, hfind, verify_password, hwrong,
    Bool.not_false, if_true, log_login_attempt, hok, Bool.false_eq_true,
    if_false, log_action, Option.getD_some]
  refine ⟨?_, ?_, ?_, ?_, ?_⟩ <;> trivial

/-- One login with the correct password: a token for the user is issued,
whatever failed attempts preceded it. -/
theorem login_success_step (db : Db) (now : Int) (ip : String)
    (ua : Option String) (u : User)
    (hfind : get_user_by_username db u.username = some u) :
    (login db now u.username u.hashed_password ip ua).2 = Except.ok ⟨u.username⟩ := by
  simp only [login, authenticate_user, hfind, verify_password, beq_self_eq_true,
    Bool.not_true, Bool.false_eq_true, if_false]

/-- Three consecutive failed logins for the same username, the scenario of
the claim, built from the login operation of the auth endpoint. -/
def consecutive_failed_logins (db : Db) (name wrong ip : String)
    (ua : Option String) (t1 t2 t3 : Int) : Db :=
  (login ((login ((login db t1 name wrong ip ua).1)
    t2 name wrong ip ua).1) t3 name wrong ip ua).1

/-- A provider user with a known password in a working store. -/
def bob : User :=
  { id := 10
    username := "bob"
    hashed_password := "correct-pw"
    email := "bob@example.com"
    is_active := true
    role := "provider"
    failed_login_attempts := 0
    account_locked_until := none
    tenant_id := "t1" }

/-- A working store holding exactly the user bob. -/
def db_bob : Db :=
  { users := [bob]
    patients := []
    notes := []
    policies := []
    audit_logs := []
    login_attempts := []
    local_log := []
    store_fails := false }

/-- Claim C8 as stated is false on the code: after three failed login
attempts for bob (which do produce three LoginAttempt rows and three
mirrored LOGIN_FAILED audit events), the fourth attempt with the correct
password succeeds — no lockout state was written (the user rows are
unchanged) and none is consulted. -/
theorem C8_counterexample :
    (consecutive_failed_logins db_bob "bob" "wrong" "9.9.9.9" none 1 2 3).login_attempts.length = 3
    ∧ ((consecutive_failed_logins db_bob "bob" "wrong" "9.9.9.9" none 1 2 3).audit_logs.filter
        (fun a => a.action_type == "LOGIN_FAILED")).length = 3
    ∧ (login (consecutive_failed_logins db_bob "bob" "wrong" "9.9.9.9" none 1 2 3)
        4 "bob" "correct-pw" "9.9.9.9" none).2 = Except.ok ⟨"bob"⟩
    ∧ (consecutive_failed_logins db_bob "bob" "wrong" "9.9.9.9" none 1 2 3).users
        = db_bob.users :=
  ⟨rfl, rfl, rfl, rfl⟩

/-- Claim C8 amended: three consecutive failed attempts for a username do
produce exactly three LoginAttempt rows and three mirrored LOGIN_FAILED
audit events, but no lockout bookkeeping is performed — the user rows are
bitwise unchanged — and the fourth attempt is decided solely by its own
credentials: with the correct password it succeeds. -/
theorem C8_amended (db : Db) (u : User) (wrong ip : String) (ua : Option String)
    (t1 t2 t3 t4 : Int)
    (hfind : get_user_by_username db u.username = some u)
    (hwrong : (wrong == u.hashed_password) = false)
    (hok : db.store_fails = false) :
    (consecutive_failed_logins db u.username wrong ip ua t1 t2 t3).login_attempts
      = db.login_attempts ++
        [failed_login_row u.username ip ua t1,
         failed_login_row u.username ip ua t2,
         failed_login_row u.username ip ua t3]
    ∧ (consecutive_failed_logins db u.username wrong ip ua t1 t2 t3).audit_logs
      = db.audit_logs ++
        [failed_login_audit u.username ip t1,
         failed_login_audit u.username ip t2,
         failed_login_audit u.username ip t3]
    ∧ (consecutive_failed_logins db u.username wrong ip ua t1 t2 t3).users
      = db.users
    ∧ (login (consecutive_failed_logins db u.username wrong ip ua t1 t2 t3)
        t4 u.username u.hashed_password ip ua).2 = Except.ok ⟨u.username⟩ := by
  have e1 := login_failed_step db t1 u.username wrong ip ua u hfind hwrong hok
  have hfind1 : get_user_by_username (login db t1 u.username wrong ip ua).1
      u.username = some u := by
    unfold get_user_by_username at hfind ⊢
    rw [e1.1]
    exact hfind
  have e2 := login_failed_step (login db t1 u.username wrong ip ua).1 t2
    u.username wrong ip ua u hfind1 hwrong e1.2.2.2.1
  have hfind2 : get_user_by_username
      (login (login db t1 u.username wrong ip ua).1 t2 u.username wrong ip ua).1
      u.username = some u := by
    unfold get_user_by_username at hfind1 ⊢
    rw [e2.1]
    exact hfind1
  have e3 := login_failed_step
    (login (login db t1 u.username wrong ip ua).1 t2 u.username wrong ip ua).1 t3
    u.username wrong ip ua u hfind2 hwrong e2.2.2.2.1
  have hfind3 : get_user_by_username
      (consecutive_failed_logins db u.username wrong ip ua t1 t2 t3)
      u.username = some u := by
    unfold consecutive_failed_logins
    unfold get_user_by_username at hfind2 ⊢
    rw [e3.1]
    exact hfind2
  refine ⟨?_, ?_, ?_, login_success_step _ t4 ip ua u hfind3⟩
  · rw [consecutive_failed_logins, e3.2.1, e2.2.1, e1.2.1]
    simp
  · rw [consecutive_failed_logins, e3.2.2.1, e2.2.2.1, e1.2.2.1]
    simp
  · rw [consecutive_failed_logins, e3.1, e2.1, e1.1]

/-- Witness for C8_amended at the concrete user bob. -/
theorem C8_amended_witness :
    (consecutive_failed_logins db_bob "bob" "wrong" "9.9.9.9" none 1 2 3).users
      = db_bob.users :=
  (C8_amended db_bob bob "wrong" "9.9.9.9" none 1 2 3 4 rfl rfl rfl).2.2.1

/-- A path absent from a file map stays absent after filtering. -/
theorem find?_none_of_filter {α : Type} (q r : α → Bool) (l : List α)
    (h : l.find? q = none) : (l.filter r).find? q = none := by
  rw [List.find?_eq_none] at h ⊢
  intro x hx
  exact h x (List.mem_of_mem_filter hx)

/-- secure_delete_file never creates a file: an absent path stays absent. -/
theorem secure_delete_lookup_none (fs : Fs) (q : String) (k : Nat) (p : String)
    (h : Fs.lookup fs p = none) :
    Fs.lookup (secure_delete_file fs q k).1 p = none := by
  unfold secure_delete_file
  cases hq : Fs.lookup fs q with
  | none => exact h
  | some sz =>
    by_cases hf : fs.faulty.contains q = true
    · simp only [hf, if_true]
      exact h
    · simp only [hf, Bool.false_eq_true, if_false]
      unfold Fs.lookup at h ⊢
      rw [Option.map_eq_none'] at h ⊢
      exact find?_none_of_filter _ _ _ h

/-- process_expired_note never creates a file: an absent path stays
absent. -/
theorem process_note_lookup_none (fs : Fs) (lg : List LogLine) (n : Note)
    (p : String) (h : Fs.lookup fs p = none) :
    Fs.lookup (process_expired_note fs lg n).1 p = none := by
  unfold process_expired_note
  cases hq : n.audio_file with
  | none => exact h
  | some path =>
    by_cases hs : (secure_delete_file fs path 3).2 = true
    · simp only [hs, if_true]
      exact secure_delete_lookup_none fs path 3 p h
    · simp only [hs, Bool.false_eq_true, if_false]
      exact secure_delete_lookup_none fs path 3 p h

/-- The audio sweep loop never creates a file: an absent path stays
absent. -/
theorem sweep_lookup_none (now : Int) (p : String) :
    ∀ (l : List Note) (fs : Fs) (lg : List LogLine),
      Fs.lookup fs p = none →
      Fs.lookup (audio_sweep_loop now fs lg l).1 p = none := by
  intro l
  induction l with
  | nil => intro fs lg h ; exact h
  | cons m rest ih =>
    intro fs lg h
    unfold audio_sweep_loop
    by_cases hm : is_expired_audio now m = true
    · simp only [hm, if_true]
      exact ih _ _ (process_note_lookup_none fs lg m p h)
    · simp only [hm, Bool.false_eq_true, if_false]
      exact ih _ _ h

/-- The note at position i of the audio sweep output: when the note at i
is expired and its audio path is absent on disk, it comes out flagged
securely deleted with cleared file references. -/
theorem sweep_get_absent (now : Int) :
    ∀ (l : List Note) (fs : Fs) (lg : List LogLine) (i : Nat) (n : Note)
      (path : String),
      l[i]? = some n →
      is_expired_audio now n = true →
      n.audio_file = some path →
      Fs.lookup fs path = none →
      (audio_sweep_loop now fs lg l).2.2.1[i]?
        = some { n with audio_secure_deleted := true
                        audio_file := none
                        s3_key := none } := by
  intro l
  induction l with
  | nil => intro fs lg i n path hi ; simp at hi
  | cons m rest ih =>
    intro fs lg i n path hi hexp hpath hfs
    unfold audio_sweep_loop
    cases i with
    | zero =>
      rw [List.getElem?_cons_zero, Option.some_inj] at hi
      subst hi
      simp only [hexp, if_true, process_expired_note, hpath, secure_delete_file, hfs]
      rw [List.getElem?_cons_zero]
    | succ j =>
      rw [List.getElem?_cons_succ] at hi
      by_cases hm : is_expired_audio now m = true
      · simp only [hm, if_true, List.getElem?_cons_succ]
        exact ih _ _ j n path hi hexp hpath
          (process_note_lookup_none fs lg m path hfs)
      · simp only [hm, Bool.false_eq_true, if_false, List.getElem?_cons_succ]
        exact ih _ _ j n path hi hexp hpath hfs

/-- Claim C10: a path absent on disk makes secure_delete_file return True
with the filesystem untouched (no overwrite performed), and the audio
sweep then treats that note as successfully securely deleted — it flags
audio_secure_deleted and clears the audio_file and s3_key references. -/
theorem C10_absent_audio :
    (∀ (fs : Fs) (p : String) (k : Nat),
      Fs.lookup fs p = none → secure_delete_file fs p k = (fs, true))
    ∧ (∀ (db : Db) (fs : Fs) (now : Int) (i : Nat) (n : Note) (path : String),
      db.store_fails = false →
      db.notes[i]? = some n →
      is_expired_audio now n = true →
      n.audio_file = some path →
      Fs.lookup fs path = none →
      (delete_expired_audio_files db fs now).1.notes[i]?
        = some { n with audio_secure_deleted := true
                        audio_file := none
                        s3_key := none }) := by
  constructor
  · intro fs p k h
    unfold secure_delete_file
    rw [h]
  · intro db fs now i n path hok hi hexp hpath hfs
    unfold delete_expired_audio_files
    rw [hok]
    simp only [Bool.false_eq_true, if_false]
    exact sweep_get_absent now db.notes fs db.local_log i n path hi hexp hpath hfs

/-- Witness for C10_absent_audio: the one-note store with its audio path
missing from an empty filesystem. -/
theorem C10_absent_audio_witness :
    secure_delete_file ⟨[], [], []⟩ "rec1.wav" 3 = (⟨[], [], []⟩, true)
    ∧ (delete_expired_audio_files db_one_note ⟨[], [], []⟩ 100).1.notes[0]?
      = some { note_audio with audio_secure_deleted := true
                               audio_file := none
                               s3_key := none } :=
  ⟨C10_absent_audio.1 ⟨[], [], []⟩ "rec1.wav" 3 rfl,
   C10_absent_audio.2 db_one_note ⟨[], [], []⟩ 100 0 note_audio "rec1.wav"
     rfl rfl rfl rfl rfl⟩

/-! Support lemmas about the retention sweep, used to settle the claims
about run_retention_cleanup. -/

/-- The retention-policy rows selecting a given patient resource. -/
def patient_policy_for (i : Int) (q : RetentionPolicyRow) : Bool :=
  q.resource_type == "patient" && q.resource_id == i

/-- log_action touches only the audit log and the process-local channel. -/
theorem log_action_tables (db : Db) (now : Int) (uid : Option Int)
    (un a_t r_t d : String) (rid pid : Option Int) (phi : Option (List String))
    (s : Bool) (e : Option String) :
    (log_action db now uid un a_t r_t d rid pid phi s e).patients = db.patients
    ∧ (log_action db now uid un a_t r_t d rid pid phi s e).notes = db.notes
    ∧ (log_action db now uid un a_t r_t d rid pid phi s e).policies = db.policies
    ∧ (log_action db now uid un a_t r_t d rid pid phi s e).users = db.users
    ∧ (log_action db now uid un a_t r_t d rid pid phi s e).store_fails = db.store_fails := by
  unfold log_action
  split <;> exact ⟨rfl, rfl, rfl, rfl, rfl⟩

/-- Every audit row after log_action is either preexisting or carries the
success flag this call passed. -/
theorem log_action_audit_mem (db : Db) (now : Int) (uid : Option Int)
    (un a_t r_t d : String) (rid pid : Option Int) (phi : Option (List String))
    (s : Bool) (e : Option String) :
    ∀ a ∈ (log_action db now uid un a_t r_t d rid pid phi s e).audit_logs,
      a ∈ db.audit_logs ∨ a.success = s := by
  unfold log_action
  split
  · intro a ha ; exact Or.inl ha
  · intro a ha
    rcases List.mem_append.mp ha with h | h
    · exact Or.inl h
    · right
      rw [List.mem_singleton.mp h]

/-- One step of the notes loop in securely_delete_patient: only the notes
table, the audit log and the process channel change; the audit rows it
writes are success rows. -/
theorem sdp_note_step_tables (now uidn : Int) (un rs : String) (pid : Int)
    (d : Db) (n : Note) :
    (sdp_note_step now uidn un rs pid d n).patients = d.patients
    ∧ (sdp_note_step now uidn un rs pid d n).policies = d.policies
    ∧ (sdp_note_step now uidn un rs pid d n).users = d.users
    ∧ (sdp_note_step now uidn un rs pid d n).store_fails = d.store_fails
    ∧ (∀ a ∈ (sdp_note_step now uidn un rs pid d n).audit_logs,
        a ∈ d.audit_logs ∨ a.success = true) := by
  unfold sdp_note_step
  have h := log_action_tables d now (some uidn) un "DELETE" "note"
    ("Automated deletion of note " ++ toString n.id ++ " - " ++ rs)
    (some n.id) (some pid) (some ["content", "note_type"]) true none
  exact ⟨h.1, h.2.2.1, h.2.2.2.1, h.2.2.2.2,
    log_action_audit_mem d now (some uidn) un "DELETE" "note" _
      (some n.id) (some pid) (some ["content", "note_type"]) true none⟩

/-- The notes loop of securely_delete_patient keeps patients, policies,
users and the store flag, and writes only success audit rows. -/
theorem sdp_fold_tables (now uidn : Int) (un rs : String) (pid : Int) :
    ∀ (victims : List Note) (d : Db),
      (victims.foldl (sdp_note_step now uidn un rs pid) d).patients = d.patients
      ∧ (victims.foldl (sdp_note_step now uidn un rs pid) d).policies = d.policies
      ∧ (victims.foldl (sdp_note_step now uidn un rs pid) d).users = d.users
      ∧ (victims.foldl (sdp_note_step now uidn un rs pid) d).store_fails = d.store_fails
      ∧ (∀ a ∈ (victims.foldl (sdp_note_step now uidn un rs pid) d).audit_logs,
          a ∈ d.audit_logs ∨ a.success = true) := by
  intro victims
  induction victims with
  | nil => exact fun d => ⟨rfl, rfl, rfl, rfl, fun a ha => Or.inl ha⟩
  | cons n rest ih =>
    intro d
    have hstep := sdp_note_step_tables now uidn un rs pid d n
    have hr := ih (sdp_note_step now uidn un rs pid d n)
    refine ⟨hr.1.trans hstep.1, hr.2.1.trans hstep.2.1, hr.2.2.1.trans hstep.2.2.1,
      hr.2.2.2.1.trans hstep.2.2.2.1, fun a ha => ?_⟩
    rcases hr.2.2.2.2 a ha with h | h
    · exact hstep.2.2.2.2 a h
    · exact Or.inr h

/-- Rewriting the first row matched by one predicate does not change the
rows selected by a disjoint predicate. -/
theorem filter_update_first (P pr : RetentionPolicyRow → Bool)
    (f : RetentionPolicyRow → RetentionPolicyRow)
    (hPf : ∀ p, P (f p) = P p)
    (hexcl : ∀ p, P p = true → pr p = false) :
    ∀ l : List RetentionPolicyRow,
      (update_first_policy pr f l).filter P = l.filter P := by
  intro l
  induction l with
  | nil => rfl
  | cons p rest ih =>
    unfold update_first_policy
    by_cases hp : pr p = true
    · simp only [hp, if_true]
      have hP : P p = false := by
        cases hPp : P p
        · rfl
        · exact absurd (hexcl p hPp) (by simp [hp])
      rw [List.filter_cons, List.filter_cons, hPf p, hP]
      simp
    · simp only [hp, Bool.false_eq_true, if_false]
      rw [List.filter_cons, List.filter_cons, ih]

/-- A patient that is not in the table makes securely_delete_patient take
the warning branch: one warning line, result False, nothing else
changed — in particular the policy row is not marked completed. -/
theorem sdp_absent (db : Db) (now pid uidn : Int) (r : Option String)
    (h : db.patients.find? (fun p => p.id == pid) = none) :
    securely_delete_patient db now pid uidn r
      = ({ db with local_log := db.local_log ++
          [⟨"warning", "Patient " ++ toString pid ++ " not found for deletion"⟩] },
         false) := by
  unfold securely_delete_patient
  rw [h]

/-- securely_delete_patient keeps the store flag, only removes patients,
writes only success audit rows, and leaves the policy rows of every other
patient resource untouched. -/
theorem sdp_tables (db : Db) (now pid uidn : Int) (r : Option String) :
    (securely_delete_patient db now pid uidn r).1.store_fails = db.store_fails
    ∧ (∀ q ∈ (securely_delete_patient db now pid uidn r).1.patients,
        q ∈ db.patients)
    ∧ (∀ a ∈ (securely_delete_patient db now pid uidn r).1.audit_logs,
        a ∈ db.audit_logs ∨ a.success = true)
    ∧ (∀ i, (pid == i) = false →
        (securely_delete_patient db now pid uidn r).1.policies.filter
            (patient_policy_for i)
          = db.policies.filter (patient_policy_for i)) := by
  cases hfind : db.patients.find? (fun p => p.id == pid) with
  | none =>
    rw [sdp_absent db now pid uidn r hfind]
    exact ⟨rfl, fun q hq => hq, fun a ha => Or.inl ha, fun i _ => rfl⟩
  | some p0 =>
    simp only [securely_delete_patient, hfind]
    have hfold := sdp_fold_tables now uidn
      (match db.users.find? (fun u => u.id == uidn) with
       | some u => u.username
       | none => "system") (r.getD "None") pid
      (db.notes.filter (fun n => n.patient_id == pid)) db
    have hla := log_action_tables
      (List.foldl (sdp_note_step now uidn
        (match db.users.find? (fun u => u.id == uidn) with
         | some u => u.username
         | none => "system") (r.getD "None") pid) db
        (db.notes.filter (fun n => n.patient_id == pid)))
      now (some uidn)
      (match db.users.find? (fun u => u.id == uidn) with
       | some u => u.username
       | none => "system") "DELETE" "patient"
      ("Automated deletion of patient " ++ toString pid ++ " - " ++ r.getD "None")
      (some pid) (some pid)
      (some ["first_name", "last_name", "date_of_birth", "email", "phone_number"])
      true none
    have hlam := log_action_audit_mem
      (List.foldl (sdp_note_step now uidn
        (match db.users.find? (fun u => u.id == uidn) with
         | some u => u.username
         | none => "system") (r.getD "None") pid) db
        (db.notes.filter (fun n => n.patient_id == pid)))
      now (some uidn)
      (match db.users.find? (fun u => u.id == uidn) with
       | some u => u.username
       | none => "system") "DELETE" "patient"
      ("Automated deletion of patient " ++ toString pid ++ " - " ++ r.getD "None")
      (some pid) (some pid)
      (some ["first_name", "last_name", "date_of_birth", "email", "phone_number"])
      true none
    by_cases hsf : db.store_fails = true
    · rw [if_pos hsf]
      exact ⟨rfl, fun q hq => hq, fun a ha => Or.inl ha, fun i _ => rfl⟩
    · rw [if_neg hsf]
      refine ⟨?_, ?_, ?_, ?_⟩
      · exact hla.2.2.2.2.trans hfold.2.2.2.1
      · intro q hq
        exact hfold.1 ▸ (hla.1 ▸ List.mem_of_mem_filter hq)
      · intro a ha
        rcases hlam a ha with h | h
        · exact hfold.2.2.2.2 a h
        · exact Or.inr h
      · intro i hi
        have hexcl : ∀ p : RetentionPolicyRow, patient_policy_for i p = true →
            (p.resource_type == "patient" && p.resource_id == pid) = false := by
          intro p hP
          unfold patient_policy_for at hP
          rw [Bool.and_eq_true] at hP
          obtain ⟨hrt, hrid⟩ := hP
          rw [hrt, Bool.true_and, eq_of_beq hrid]
          cases hpi : (i == pid)
          · rfl
          · exfalso
            rw [eq_of_beq hpi] at hi
            simp at hi
        rw [filter_update_first (patient_policy_for i)
              (fun p => p.resource_type == "patient" && p.resource_id == pid)
              (fun p => { p with deletion_completed_at := some now
                                 deletion_reason := r })
              (fun p => rfl) hexcl, hla.2.2.1, hfold.2.1]

/-- securely_delete_note keeps the store flag and the patients table,
writes only success audit rows, and never touches the policy rows of a
patient resource. -/
theorem sdn_tables (db : Db) (now nid uidn : Int) (r : Option String) :
    (securely_delete_note db now nid uidn r).1.store_fails = db.store_fails
    ∧ (securely_delete_note db now nid uidn r).1.patients = db.patients
    ∧ (∀ a ∈ (securely_delete_note db now nid uidn r).1.audit_logs,
        a ∈ db.audit_logs ∨ a.success = true)
    ∧ (∀ i, (securely_delete_note db now nid uidn r).1.policies.filter
          (patient_policy_for i)
        = db.policies.filter (patient_policy_for i)) := by
  cases hfind : db.notes.find? (fun n => n.id == nid) with
  | none =>
    simp only [securely_delete_note, hfind]
    exact ⟨by trivial, by trivial, fun a ha => Or.inl ha, fun i => by trivial⟩
  | some n0 =>
    simp only [securely_delete_note, hfind]
    have hla := log_action_tables db now (some uidn)
      (match db.users.find? (fun u => u.id == uidn) with
       | some u => u.username
       | none => "system") "DELETE" "note"
      ("Automated deletion of note " ++ toString nid ++ " - " ++ r.getD "None")
      (some nid) (some n0.patient_id) (some ["content", "note_type"]) true none
    have hlam := log_action_audit_mem db now (some uidn)
      (match db.users.find? (fun u => u.id == uidn) with
       | some u => u.username
       | none => "system") "DELETE" "note"
      ("Automated deletion of note " ++ toString nid ++ " - " ++ r.getD "None")
      (some nid) (some n0.patient_id) (some ["content", "note_type"]) true none
    by_cases hsf : db.store_fails = true
    · rw [if_pos hsf]
      exact ⟨rfl, rfl, fun a ha => Or.inl ha, fun i => rfl⟩
    · rw [if_neg hsf]
      refine ⟨hla.2.2.2.2, hla.1, fun a ha => hlam a ha, ?_⟩
      intro i
      have hexcl : ∀ p : RetentionPolicyRow, patient_policy_for i p = true →
          (p.resource_type == "note" && p.resource_id == nid) = false := by
        intro p hP
        unfold patient_policy_for at hP
        rw [Bool.and_eq_true] at hP
        obtain ⟨hrt, _⟩ := hP
        rw [eq_of_beq hrt]
        rfl
      rw [filter_update_first (patient_policy_for i)
            (fun p => p.resource_type == "note" && p.resource_id == nid)
            (fun p => { p with deletion_completed_at := some now
                               deletion_reason := r })
            (fun p => rfl) hexcl, hla.2.2.1]

/-- cleanup_old_audit_logs keeps the store flag, the patients table and
the policy rows, and every audit row it leaves behind is either
preexisting or a success row. -/
theorem coal_tables (db : Db) (now uidn : Int) :
    (cleanup_old_audit_logs db now uidn).1.store_fails = db.store_fails
    ∧ (cleanup_old_audit_logs db now uidn).1.patients = db.patients
    ∧ (cleanup_old_audit_logs db now uidn).1.policies = db.policies
    ∧ (∀ a ∈ (cleanup_old_audit_logs db now uidn).1.audit_logs,
        a ∈ db.audit_logs ∨ a.success = true) := by
  unfold cleanup_old_audit_logs
  by_cases hz : ((db.audit_logs.filter
      (fun a => decide (a.created_at < now - AUDIT_LOG_RETENTION_DAYS))).length == 0) = true
  · rw [if_pos hz]
    exact ⟨rfl, rfl, rfl, fun a ha => Or.inl ha⟩
  · rw [if_neg hz]
    have hla := log_action_tables db now (some uidn)
      (match db.users.find? (fun u => u.id == uidn) with
       | some u => u.username
       | none => "system") "DELETE" "audit_log"
      ("Automated cleanup of " ++
        toString (db.audit_logs.filter
          (fun a => decide (a.created_at < now - AUDIT_LOG_RETENTION_DAYS))).length
        ++ " old audit logs")
      none none none true none
    have hlam := log_action_audit_mem db now (some uidn)
      (match db.users.find? (fun u => u.id == uidn) with
       | some u => u.username
       | none => "system") "DELETE" "audit_log"
      ("Automated cleanup of " ++
        toString (db.audit_logs.filter
          (fun a => decide (a.created_at < now - AUDIT_LOG_RETENTION_DAYS))).length
        ++ " old audit logs")
      none none none true none
    by_cases hsf : db.store_fails = true
    · rw [if_pos hsf]
      exact ⟨rfl, rfl, rfl, fun a ha => Or.inl ha⟩
    · rw [if_neg hsf]
      refine ⟨hla.2.2.2.2, hla.1, hla.2.2.1, fun a ha => ?_⟩
      exact hlam a (List.mem_of_mem_filter ha)

/-- Processing the due-policy list when the patient resource i is absent:
the store flag stays down, the patient stays absent, the policy rows for
patient i pass through untouched, errors only accumulate, and every due
policy naming patient i contributes a failure message to the errors
list — the loop never marks it completed and never stops early. -/
theorem cleanup_loop_absent (now uid i : Int) :
    ∀ (due : List RetentionPolicyRow) (db : Db) (res : SweepResult),
      db.store_fails = false →
      (∀ p ∈ db.patients, (p.id == i) = false) →
      (cleanup_loop now uid db res due).1.store_fails = false
      ∧ (∀ p ∈ (cleanup_loop now uid db res due).1.patients, (p.id == i) = false)
      ∧ (cleanup_loop now uid db res due).1.policies.filter (patient_policy_for i)
          = db.policies.filter (patient_policy_for i)
      ∧ (∀ e ∈ res.errors, e ∈ (cleanup_loop now uid db res due).2.errors)
      ∧ (∀ pol ∈ due, pol.resource_type = "patient" → pol.resource_id = i →
          ("Failed to delete patient " ++ toString i)
            ∈ (cleanup_loop now uid db res due).2.errors) := by
  intro due
  induction due with
  | nil =>
    intro db res hok habs
    exact ⟨hok, habs, rfl, fun e he => he,
      fun pol hpol => absurd hpol (List.not_mem_nil pol)⟩
  | cons pol rest ih =>
    intro db res hok habs
    by_cases hrt : (pol.resource_type == "patient") = true
    · have hsdp := sdp_tables db now pol.resource_id uid pol.deletion_reason
      have hok2 : (securely_delete_patient db now pol.resource_id uid
          pol.deletion_reason).1.store_fails = false := hsdp.1.trans hok
      have habs2 : ∀ p ∈ (securely_delete_patient db now pol.resource_id uid
          pol.deletion_reason).1.patients, (p.id == i) = false :=
        fun p hp => habs p (hsdp.2.1 p hp)
      have hpolicies : (securely_delete_patient db now pol.resource_id uid
            pol.deletion_reason).1.policies.filter (patient_policy_for i)
          = db.policies.filter (patient_policy_for i) := by
        cases hfind : db.patients.find? (fun p => p.id == pol.resource_id) with
        | none =>
          rw [sdp_absent db now pol.resource_id uid pol.deletion_reason hfind]
        | some p0 =>
          have hp0 := List.find?_some hfind
          have hmem := List.mem_of_find?_eq_some hfind
          have hni : (pol.resource_id == i) = false := by
            have h1 : p0.id = pol.resource_id := eq_of_beq hp0
            have h2 := habs p0 hmem
            rw [h1] at h2
            exact h2
          exact hsdp.2.2.2 i hni
      simp only [cleanup_loop, hrt, if_true]
      cases hr2 : (securely_delete_patient db now pol.resource_id uid
          pol.deletion_reason).2 with
      | true =>
        have hrest := ih (securely_delete_patient db now pol.resource_id uid
            pol.deletion_reason).1
          { res with patients_deleted := res.patients_deleted + 1 } hok2 habs2
        refine ⟨hrest.1, hrest.2.1, hrest.2.2.1.trans hpolicies,
          fun e he => hrest.2.2.2.1 e he, fun q hq htype hid => ?_⟩
        rcases List.mem_cons.mp hq with hq | hq
        · exfalso
          subst hq
          rw [hid] at hr2
          have hnone : db.patients.find? (fun p => p.id == i) = none := by
            rw [List.find?_eq_none]
            intro p hp
            rw [habs p hp]
            exact Bool.false_ne_true
          rw [sdp_absent db now i uid q.deletion_reason hnone] at hr2
          exact Bool.false_ne_true hr2
        · exact hrest.2.2.2.2 q hq htype hid
      | false =>
        have hrest := ih (securely_delete_patient db now pol.resource_id uid
            pol.deletion_reason).1
          { res with errors := res.errors ++
              ["Failed to delete patient " ++ toString pol.resource_id] } hok2 habs2
        refine ⟨hrest.1, hrest.2.1, hrest.2.2.1.trans hpolicies,
          fun e he => hrest.2.2.2.1 e (List.mem_append_left _ he),
          fun q hq htype hid => ?_⟩
        rcases List.mem_cons.mp hq with hq | hq
        · subst hq
          apply hrest.2.2.2.1
          apply List.mem_append_right
          rw [hid]
          exact List.mem_singleton.mpr rfl
        · exact hrest.2.2.2.2 q hq htype hid
    · by_cases hnt : (pol.resource_type == "note") = true
      · have hsdn := sdn_tables db now pol.resource_id uid pol.deletion_reason
        have hok2 : (securely_delete_note db now pol.resource_id uid
            pol.deletion_reason).1.store_fails = false := hsdn.1.trans hok
        have habs2 : ∀ p ∈ (securely_delete_note db now pol.resource_id uid
            pol.deletion_reason).1.patients, (p.id == i) = false := by
          rw [hsdn.2.1]
          exact habs
        simp only [cleanup_loop, hrt, Bool.false_eq_true, if_false, hnt, if_true]
        have hhead : ∀ q : RetentionPolicyRow, q = pol →
            q.resource_type = "patient" → False := by
          intro q hq htype
          subst hq
          rw [htype] at hrt
          exact hrt rfl
        cases hr2 : (securely_delete_note db now pol.resource_id uid
            pol.deletion_reason).2 with
        | true =>
          have hrest := ih (securely_delete_note db now pol.resource_id uid
              pol.deletion_reason).1
            { res with notes_deleted := res.notes_deleted + 1 } hok2 habs2
          refine ⟨hrest.1, hrest.2.1, hrest.2.2.1.trans (hsdn.2.2.2 i),
            fun e he => hrest.2.2.2.1 e he, fun q hq htype hid => ?_⟩
          rcases List.mem_cons.mp hq with hq | hq
          · exact absurd htype (fun ht => hhead q hq ht)
          · exact hrest.2.2.2.2 q hq htype hid
        | false =>
          have hrest := ih (securely_delete_note db now pol.resource_id uid
              pol.deletion_reason).1
            { res with errors := res.errors ++
                ["Failed to delete note " ++ toString pol.resource_id] } hok2 habs2
          refine ⟨hrest.1, hrest.2.1, hrest.2.2.1.trans (hsdn.2.2.2 i),
            fun e he => hrest.2.2.2.1 e (List.mem_append_left _ he),
            fun q hq htype hid => ?_⟩
          rcases List.mem_cons.mp hq with hq | hq
          · exact absurd htype (fun ht => hhead q hq ht)
          · exact hrest.2.2.2.2 q hq htype hid
      · simp only [cleanup_loop, hrt, Bool.false_eq_true, if_false, hnt]
        have hrest := ih db res hok habs
        refine ⟨hrest.1, hrest.2.1, hrest.2.2.1, fun e he => hrest.2.2.2.1 e he,
          fun q hq htype hid => ?_⟩
        rcases List.mem_cons.mp hq with hq | hq
        · exfalso
          subst hq
          rw [htype] at hrt
          exact hrt rfl
        · exact hrest.2.2.2.2 q hq htype hid

/-- The full retention sweep when patient resource i is absent: the store
state carries over, the patient stays absent, the policy rows for patient
i come through untouched (never completed, never given a new reason), and
every due policy naming patient i leaves a failure message in the errors
list. -/
theorem sweep_absent_patient (db : Db) (now uid i : Int)
    (hok : db.store_fails = false)
    (habs : ∀ p ∈ db.patients, (p.id == i) = false) :
    (run_retention_cleanup db now uid).1.store_fails = false
    ∧ (∀ p ∈ (run_retention_cleanup db now uid).1.patients, (p.id == i) = false)
    ∧ (run_retention_cleanup db now uid).1.policies.filter (patient_policy_for i)
        = db.policies.filter (patient_policy_for i)
    ∧ (∀ pol ∈ get_resources_due_for_deletion db now none,
        pol.resource_type = "patient" → pol.resource_id = i →
        ("Failed to delete patient " ++ toString i)
          ∈ (run_retention_cleanup db now uid).2.errors) := by
  have hloop := cleanup_loop_absent now uid i
    (get_resources_due_for_deletion db now none) db ⟨0, 0, 0, []⟩ hok habs
  have hcoal := coal_tables
    (cleanup_loop now uid db ⟨0, 0, 0, []⟩
      (get_resources_due_for_deletion db now none)).1 now uid
  refine ⟨hcoal.1.trans hloop.1, ?_, hcoal.2.2.1 ▸ hloop.2.2.1, ?_⟩
  · intro p hp
    rw [show (run_retention_cleanup db now uid).1.patients
          = (cleanup_loop now uid db ⟨0, 0, 0, []⟩
              (get_resources_due_for_deletion db now none)).1.patients
        from hcoal.2.1] at hp
    exact hloop.2.1 p hp
  · intro pol hmem htype hid
    exact hloop.2.2.2.2 pol hmem htype hid

/-- One overdue retention policy naming patient resource 1, which does not
exist. -/
def policy_p1 : RetentionPolicyRow :=
  { id := 1
    resource_type := "patient"
    resource_id := 1
    retention_period_days := 2190
    deletion_scheduled_at := some 0
    deletion_completed_at := none
    deletion_reason := some "Standard retention period expired"
    created_at := -2190 }

/-- A working store holding only that overdue policy. -/
def db_overdue_patient : Db :=
  { users := []
    patients := []
    notes := []
    policies := [policy_p1]
    audit_logs := []
    login_attempts := []
    local_log := []
    store_fails := false }

/-- Claim C5 as stated is false on the code: sweeping a due policy whose
patient no longer exists records a failure in the errors list, and the
policy is left untouched — deletion_completed_at stays NULL and the
reason is never set to resource already absent — so a retried sweep
processes and fails on it again instead of skipping it. -/
theorem C5_counterexample :
    (run_retention_cleanup db_overdue_patient 10 99).2.errors
      = ["Failed to delete patient 1"]
    ∧ (run_retention_cleanup db_overdue_patient 10 99).1.policies = [policy_p1]
    ∧ (run_retention_cleanup db_overdue_patient 10 99).2.patients_deleted = 0 :=
  ⟨rfl, rfl, rfl⟩

/-- Claim C5 amended: for a due patient policy whose resource is absent,
the sweep appends a failure message to the errors list and continues; the
policy rows for that resource pass through untouched — never marked
completed, with no resource-already-absent reason — and a retried sweep
does not skip the policy: it fails on it again. -/
theorem C5_amended (db : Db) (now uid i : Int) (pol : RetentionPolicyRow)
    (hok : db.store_fails = false)
    (habs : ∀ p ∈ db.patients, (p.id == i) = false)
    (hmem : pol ∈ get_resources_due_for_deletion db now none)
    (htype : pol.resource_type = "patient") (hid : pol.resource_id = i) :
    ("Failed to delete patient " ++ toString i)
      ∈ (run_retention_cleanup db now uid).2.errors
    ∧ (run_retention_cleanup db now uid).1.policies.filter (patient_policy_for i)
        = db.policies.filter (patient_policy_for i)
    ∧ ("Failed to delete patient " ++ toString i)
      ∈ (run_retention_cleanup
          (run_retention_cleanup db now uid).1 now uid).2.errors := by
  have h1 := sweep_absent_patient db now uid i hok habs
  refine ⟨h1.2.2.2 pol hmem htype hid, h1.2.2.1, ?_⟩
  have h2 := sweep_absent_patient (run_retention_cleanup db now uid).1 now uid i
    h1.1 h1.2.1
  apply h2.2.2.2 pol ?_ htype hid
  unfold get_resources_due_for_deletion at hmem ⊢
  have hdue := List.mem_filter.mp hmem
  have hP : patient_policy_for i pol = true := by
    unfold patient_policy_for
    rw [htype, hid]
    simp
  have hmemP : pol ∈ (run_retention_cleanup db now uid).1.policies.filter
      (patient_policy_for i) := by
    rw [h1.2.2.1]
    exact List.mem_filter.mpr ⟨hdue.1, hP⟩
  exact List.mem_filter.mpr ⟨List.mem_of_mem_filter hmemP, hdue.2⟩

/-- Witness for C5_amended on the concrete overdue policy for the missing
patient 1. -/
theorem C5_amended_witness :
    ("Failed to delete patient " ++ toString (1 : Int))
      ∈ (run_retention_cleanup db_overdue_patient 10 99).2.errors :=
  (C5_amended db_overdue_patient 10 99 1 policy_p1 rfl
    (fun p hp => absurd hp (List.not_mem_nil p))
    (List.mem_singleton.mpr rfl) rfl rfl).1

/-- The loop processes every patient or note policy of the due list to
exactly one outcome — a counter increment or one errors entry — and never
stops early: the three tallies account for the whole due list. -/
theorem cleanup_loop_count (now uid : Int) :
    ∀ (due : List RetentionPolicyRow) (db : Db) (res : SweepResult),
      (cleanup_loop now uid db res due).2.patients_deleted
        + (cleanup_loop now uid db res due).2.notes_deleted
        + (cleanup_loop now uid db res due).2.errors.length
      = res.patients_deleted + res.notes_deleted + res.errors.length
        + (due.filter (fun p =>
            p.resource_type == "patient" || p.resource_type == "note")).length := by
  intro due
  induction due with
  | nil => intro db res ; simp [cleanup_loop]
  | cons pol rest ih =>
    intro db res
    by_cases hrt : (pol.resource_type == "patient") = true
    · have hfil : (List.filter (fun p =>
          p.resource_type == "patient" || p.resource_type == "note") (pol :: rest)).length
          = (List.filter (fun p =>
              p.resource_type == "patient" || p.resource_type == "note") rest).length + 1 := by
        rw [List.filter_cons, hrt, Bool.true_or, if_pos rfl]
        simp [Nat.add_comm]
      simp only [cleanup_loop, hrt, if_true]
      cases hr2 : (securely_delete_patient db now pol.resource_id uid
          pol.deletion_reason).2 with
      | true =>
        rw [if_pos rfl, ih, hfil]
        dsimp only
        omega
      | false =>
        simp only [Bool.false_eq_true, if_false]
        rw [ih, hfil]
        dsimp only
        simp only [List.length_append, List.length_singleton]
        omega
    · by_cases hnt : (pol.resource_type == "note") = true
      · have hfil : (List.filter (fun p =>
            p.resource_type == "patient" || p.resource_type == "note") (pol :: rest)).length
            = (List.filter (fun p =>
                p.resource_type == "patient" || p.resource_type == "note") rest).length + 1 := by
          rw [List.filter_cons, hnt, Bool.or_true, if_pos rfl]
          simp [Nat.add_comm]
        simp only [cleanup_loop, hrt, Bool.false_eq_true, if_false, hnt, if_true]
        cases hr2 : (securely_delete_note db now pol.resource_id uid
            pol.deletion_reason).2 with
        | true =>
          rw [if_pos rfl, ih, hfil]
          dsimp only
          omega
        | false =>
          simp only [Bool.false_eq_true, if_false]
          rw [ih, hfil]
          dsimp only
          simp only [List.length_append, List.length_singleton]
          omega
      · have hrt' : (pol.resource_type == "patient") = false := by
          cases hx : (pol.resource_type == "patient")
          · rfl
          · exact absurd hx hrt
        have hnt' : (pol.resource_type == "note") = false := by
          cases hx : (pol.resource_type == "note")
          · rfl
          · exact absurd hx hnt
        have hfil : (List.filter (fun p =>
            p.resource_type == "patient" || p.resource_type == "note") (pol :: rest)).length
            = (List.filter (fun p =>
                p.resource_type == "patient" || p.resource_type == "note") rest).length := by
          rw [List.filter_cons, hrt', hnt']
          simp
        simp only [cleanup_loop, hrt, Bool.false_eq_true, if_false, hnt]
        rw [ih, hfil]

/-- Every audit row present after the loop is either preexisting or a
success row: the loop audits no failure. -/
theorem cleanup_loop_audit (now uid : Int) :
    ∀ (due : List RetentionPolicyRow) (db : Db) (res : SweepResult),
      ∀ a ∈ (cleanup_loop now uid db res due).1.audit_logs,
        a ∈ db.audit_logs ∨ a.success = true := by
  intro due
  induction due with
  | nil => intro db res a ha ; exact Or.inl ha
  | cons pol rest ih =>
    intro db res a ha
    by_cases hrt : (pol.resource_type == "patient") = true
    · simp only [cleanup_loop, hrt, if_true] at ha
      cases hr2 : (securely_delete_patient db now pol.resource_id uid
          pol.deletion_reason).2 with
      | true =>
        rw [hr2, if_pos rfl] at ha
        rcases ih _ _ a ha with h | h
        · exact (sdp_tables db now pol.resource_id uid pol.deletion_reason).2.2.1 a h
        · exact Or.inr h
      | false =>
        rw [hr2] at ha
        simp only [Bool.false_eq_true, if_false] at ha
        rcases ih _ _ a ha with h | h
        · exact (sdp_tables db now pol.resource_id uid pol.deletion_reason).2.2.1 a h
        · exact Or.inr h
    · by_cases hnt : (pol.resource_type == "note") = true
      · simp only [cleanup_loop, hrt, Bool.false_eq_true, if_false, hnt, if_true] at ha
        cases hr2 : (securely_delete_note db now pol.resource_id uid
            pol.deletion_reason).2 with
        | true =>
          rw [hr2, if_pos rfl] at ha
          rcases ih _ _ a ha with h | h
          · exact (sdn_tables db now pol.resource_id uid pol.deletion_reason).2.2.1 a h
          · exact Or.inr h
        | false =>
          rw [hr2] at ha
          simp only [Bool.false_eq_true, if_false] at ha
          rcases ih _ _ a ha with h | h
          · exact (sdn_tables db now pol.resource_id uid pol.deletion_reason).2.2.1 a h
          · exact Or.inr h
      · simp only [cleanup_loop, hrt, Bool.false_eq_true, if_false, hnt] at ha
        exact ih _ _ a ha

/-- A plain note without audio, target of an overdue note policy. -/
def note_plain : Note :=
  { id := 2
    patient_id := 9
    provider_id := 99
    created_at := 0
    audio_file := none
    s3_key := none
    audio_retention_days := some 30
    audio_deleted_at := none
    audio_secure_deleted := false
    tenant_id := "t1" }

/-- An overdue retention policy naming the missing patient resource 5. -/
def policy_p5 : RetentionPolicyRow :=
  { id := 1
    resource_type := "patient"
    resource_id := 5
    retention_period_days := 2190
    deletion_scheduled_at := some 0
    deletion_completed_at := none
    deletion_reason := some "Standard retention period expired"
    created_at := -1 }

/-- An overdue retention policy naming the existing note 2. -/
def policy_n2 : RetentionPolicyRow :=
  { id := 2
    resource_type := "note"
    resource_id := 2
    retention_period_days := 2190
    deletion_scheduled_at := some 0
    deletion_completed_at := none
    deletion_reason := some "Standard retention period expired"
    created_at := -1 }

/-- A working store with one failing due policy (missing patient 5) ahead
of one succeeding due policy (existing note 2). -/
def db_mixed_sweep : Db :=
  { users := []
    patients := []
    notes := [note_plain]
    policies := [policy_p5, policy_n2]
    audit_logs := []
    login_attempts := []
    local_log := []
    store_fails := false }

/-- Claim C9 as stated is partly false on the code: the failure on the
first due policy is caught and recorded in the errors list and the next
due policy is still processed (the note is deleted and counted), but no
audit event records the failed deletion — the only audit row the sweep
writes is the success row for the note, and none mentions the patient
resource. -/
theorem C9_counterexample :
    (run_retention_cleanup db_mixed_sweep 10 99).2.errors
      = ["Failed to delete patient 5"]
    ∧ (run_retention_cleanup db_mixed_sweep 10 99).2.notes_deleted = 1
    ∧ ((run_retention_cleanup db_mixed_sweep 10 99).1.audit_logs.filter
        (fun a => !a.success)).length = 0
    ∧ ((run_retention_cleanup db_mixed_sweep 10 99).1.audit_logs.filter
        (fun a => a.resource_type == "patient")).length = 0
    ∧ (run_retention_cleanup db_mixed_sweep 10 99).1.audit_logs.length = 1 :=
  ⟨rfl, rfl, rfl, rfl, rfl⟩

/-- Claim C9 amended: every patient or note policy of the due list is
processed to exactly one outcome — a success counter increment or one
errors entry — so a single failure never aborts the sweep, and the
failure is recorded in the errors list but not audited: every audit row
present after the sweep is either preexisting or a success row. -/
theorem C9_amended (db : Db) (now uid : Int) :
    (run_retention_cleanup db now uid).2.patients_deleted
      + (run_retention_cleanup db now uid).2.notes_deleted
      + (run_retention_cleanup db now uid).2.errors.length
      = ((get_resources_due_for_deletion db now none).filter
          (fun p => p.resource_type == "patient" || p.resource_type == "note")).length
    ∧ (∀ a ∈ (run_retention_cleanup db now uid).1.audit_logs,
        a ∈ db.audit_logs ∨ a.success = true) := by
  have hcount := cleanup_loop_count now uid
    (get_resources_due_for_deletion db now none) db ⟨0, 0, 0, []⟩
  have haudit := cleanup_loop_audit now uid
    (get_resources_due_for_deletion db now none) db ⟨0, 0, 0, []⟩
  have hcoal := coal_tables
    (cleanup_loop now uid db ⟨0, 0, 0, []⟩
      (get_resources_due_for_deletion db now none)).1 now uid
  constructor
  · calc (run_retention_cleanup db now uid).2.patients_deleted
          + (run_retention_cleanup db now uid).2.notes_deleted
          + (run_retention_cleanup db now uid).2.errors.length
        = (cleanup_loop now uid db ⟨0, 0, 0, []⟩
            (get_resources_due_for_deletion db now none)).2.patients_deleted
          + (cleanup_loop now uid db ⟨0, 0, 0, []⟩
              (get_resources_due_for_deletion db now none)).2.notes_deleted
          + (cleanup_loop now uid db ⟨0, 0, 0, []⟩
              (get_resources_due_for_deletion db now none)).2.errors.length := rfl
      _ = _ := by simpa using hcount
  · intro a ha
    rcases hcoal.2.2.2 a ha with h | h
    · exact haudit a h
    · exact Or.inr h

/-- Witness for C9_amended on the mixed two-policy store: one error plus
one deleted note account for the two due policies. -/
theorem C9_amended_witness :
    (run_retention_cleanup db_mixed_sweep 10 99).2.patients_deleted
      + (run_retention_cleanup db_mixed_sweep 10 99).2.notes_deleted
      + (run_retention_cleanup db_mixed_sweep 10 99).2.errors.length
      = ((get_resources_due_for_deletion db_mixed_sweep 10 none).filter
          (fun p => p.resource_type == "patient" || p.resource_type == "note")).length :=
  (C9_amended db_mixed_sweep 10 99).1

end Scribsy
